import Mathlib

/-!
Verification of the graph-mode execution engine (src/library/core.ts).

The engine executes a directed graph of nodes: each node has an identity
(`nodeType`), an `exec` function and a `routing` function.  `GraphRunner.run`
drives the traversal loop, wraps each node execution in the `retry` policy,
records one `StepRow` per node execution attempt in the `Runs` table of a
SQLite store, and stops after `MAX_NODE_EXECUTIONS` executions.

Embedding choices:
* node `exec` functions are modelled as `Nat → V → Except String V`, the
  `Nat` being the retry attempt number, so that retried side effects are
  observable; errors are represented by the thrown message string;
* the SQLite store is embedded together with the two failure modes this
  repository actually exercises: the CREATE TABLE statements of
  `initializeDb` end their column lists with a trailing comma, which
  SQLite rejects at parse time (`dbExec`, `initDb`), and `Runs.id` is a
  `TEXT PRIMARY KEY` bound to the per-run `runId` by every INSERT, so a
  second insert of the same run violates the UNIQUE constraint
  (`insertStep`);
* because every run binds a fresh UUID as its `runId`, key collisions
  occur only among the rows of one run, so a run is modelled against its
  own row set; `GraphRunner.run` is settled against an initialized store —
  a state the shipped constructor can never produce, because
  `initializeDb` throws (see `constructGraphRunner`) — keeping the
  run-level behaviour and the construction-time failure separable;
* the backoff `setTimeout` calls of `retry` are recorded in a `waits` list
  so that retrying and backoff delays are observable;
* an absent key of the node map (`undefined` in JavaScript) is `none`;
  dereferencing its fields raises a TypeError, modelled as `Except.error`;
* loops are written with an explicit fuel argument that equals the number
  of remaining allowed iterations, so every definition reduces by `rfl`.
-/

/-! ## The retry policy (core.ts:5-15) -/

/-- Message of `new Error(error?.message)` (core.ts:6): the message of the
last caught error, or the empty string when no error was caught yet. -/
def errMsg : Option String → String
  | none => ""
  | some m => m

/-- Fueled implementation of `retry` (core.ts:5-15).  The fuel equals
`maxAttempt + 1 - attempt`, the number of calls still possible before the
`attempt > maxAttempt` guard fires, so the recursion is structural.  `op` is
the effectful `func` argument (state-threaded, attempt-indexed) and `wait`
is the observable effect of the backoff `setTimeout` (core.ts:11). -/
def retryAux {T St : Type} (op : Nat → St → Except String T × St)
    (wait : Nat → St → St) (maxAttempt : Nat) :
    Nat → Nat → Option String → St → Except String T × St
  | 0, _, lastErr, st => (.error (errMsg lastErr), st)
  | fuel + 1, attempt, lastErr, st =>
    if attempt > maxAttempt then (.error (errMsg lastErr), st)
    else
      match op attempt st with
      | (.ok v, st') => (.ok v, st')
      | (.error e, st') =>
        retryAux op wait maxAttempt fuel (attempt + 1) (some e) (wait attempt st')

/-- The `retry` combinator of core.ts:5-15: run `op` at the current attempt;
on success return the result, on a thrown error wait the backoff and retry
with `attempt + 1`; once `attempt > maxAttempt`, throw an error wrapping the
last failure's message. -/
def retry {T St : Type} (op : Nat → St → Except String T × St)
    (wait : Nat → St → St) (maxAttempt attempt : Nat) (lastErr : Option String)
    (st : St) : Except String T × St :=
  retryAux op wait maxAttempt (maxAttempt + 1 - attempt) attempt lastErr st

/-- Observable trace of one `retry` call used for the attempt-counting
claims: how many times the operation was invoked and the list of backoff
delays (milliseconds) awaited, in order. -/
structure RetryLog where
  invocations : Nat
  waits : List Nat
deriving Repr, DecidableEq

/-- Wrap a plain attempt-indexed operation so that each invocation is
counted in the `RetryLog`. -/
def countingOp {T : Type} (op : Nat → Except String T) (a : Nat)
    (s : RetryLog) : Except String T × RetryLog :=
  (op a, ⟨s.invocations + 1, s.waits⟩)

/-- The backoff effect of core.ts:11: after the failure of attempt `a` the
policy awaits `1000 * (a + 1) * (a + 1)` milliseconds. -/
def backoff (a : Nat) (s : RetryLog) : RetryLog :=
  ⟨s.invocations, s.waits ++ [1000 * (a + 1) * (a + 1)]⟩

/-- `retry(func, maxAttempt)` as called with the source defaults
(`attempt = 1`, no previous error), instrumented with the `RetryLog`. -/
def retryCount {T : Type} (op : Nat → Except String T) (maxAttempt : Nat) :
    Except String T × RetryLog :=
  retry (countingOp op) backoff maxAttempt 1 none ⟨0, []⟩

/-- Backoff delays awaited for the `n` consecutive failed attempts
`a, a + 1, ..., a + n - 1`. -/
def backoffList : Nat → Nat → List Nat
  | _, 0 => []
  | a, n + 1 => 1000 * (a + 1) * (a + 1) :: backoffList (a + 1) n

/-! ## The engine data model and store (core.ts:3, 17-89) -/

/-- `MAX_NODE_EXECUTIONS` (core.ts:3): the iteration cap of a run. -/
def MAX_NODE_EXECUTIONS : Nat := 100

/-- A node of the graph (class `GraphNode`, core.ts:36-53).  `V` is the type
of the values flowing between nodes.  `exec` takes the retry attempt number
first so that per-attempt behaviour is observable; `routing` returns the
identity of the next node or `none`, the termination sentinel (`null`). -/
structure GraphNode (V : Type) where
  nodeType : String
  exec : Nat → V → Except String V
  routing : V → Option String

/-- One row of the `Runs` table as declared by `initializeDb`
(core.ts:23-33): `id TEXT PRIMARY KEY`, then graphId, nodeType, input,
output, routed, datetime, success.  There is no `runId` column: every
INSERT of the engine binds the run identity as the first value, the row
`id` (core.ts:116, 129, 134).  The PRIMARY KEY uniqueness of `id` is
enforced by `insertStep` below. -/
structure StepRow where
  id : String
  graphId : String
  nodeType : String
  input : String
  output : String
  routed : String
  datetime : String
  success : Nat
deriving Repr, DecidableEq

/-- Observable store-and-effect state of one run: the rows successfully
inserted into `Runs`, and the backoff delays awaited by the retry policy. -/
structure RState where
  steps : List StepRow
  waits : List Nat
deriving Repr, DecidableEq

/-- One row of the `Graphs` table (core.ts:19-22). -/
structure GraphRow where
  id : String
  graphName : String
deriving Repr, DecidableEq

/-- The `GraphRunner` configuration (core.ts:55-83).  `ser` stands for
`JSON.stringify` and `clock` for `new Date().toISOString()`, indexed by the
number of rows already written (timestamps are opaque to the engine). -/
structure GraphRunner (V : Type) where
  graphName : String
  nodes : List (GraphNode V)
  startNode : String
  input : V
  ser : V → String
  clock : Nat → String

/-- `initializeNodeMap` (core.ts:85-89): register every node into the
identity-keyed map `this.nodeMap[node.nodeType] = node`; a later node with
the same `nodeType` silently overwrites an earlier one. -/
def mkNodeMap {V : Type} (ns : List (GraphNode V)) : String → Option (GraphNode V) :=
  ns.foldl (fun m n => fun k => if k = n.nodeType then some n else m k) (fun _ => none)

/-- JavaScript truthiness of the `nextNodeId` value as used by the
conditionals at core.ts:103, 111 and 129: `null` and the empty string are
falsy, any other string enum value is truthy. -/
def truthy : Option String → Option String
  | none => none
  | some s => if s = "" then none else some s

/-- Record one awaited backoff delay. -/
def pushWait (s : RState) (w : Nat) : RState :=
  ⟨s.steps, s.waits ++ [w]⟩

/-- The newline character, for the whitespace scan below. -/
def chr10 : Char := Char.ofNat 10

/-- The tab character, for the whitespace scan below. -/
def chr9 : Char := Char.ofNat 9

/-- The `Graphs` CREATE TABLE statement executed by `initializeDb`
(core.ts:18-22), whitespace flattened: its column list ends with a comma
directly before the closing parenthesis. -/
def graphsDDL : String :=
  "CREATE TABLE IF NOT EXISTS Graphs( id TEXT PRIMARY KEY, graphName TEXT, )"

/-- The `Runs` CREATE TABLE statement of `initializeDb` (core.ts:23-33),
whitespace flattened: its column list also ends with a trailing comma. -/
def runsDDL : String :=
  "CREATE TABLE IF NOT EXISTS Runs( id TEXT PRIMARY KEY, graphId TEXT, nodeType TEXT, input TEXT, output TEXT, routed TEXT, datetime TEXT, success INTEGER, )"

/-- Scan for a comma followed, up to whitespace, by a closing parenthesis —
the defect present in both DDL strings above.  The boolean argument records
whether a comma with only whitespace after it has just been seen. -/
def commaThenParen : List Char → Bool → Bool
  | [], _ => false
  | c :: rest, sawComma =>
    if c = ',' then commaThenParen rest true
    else if c = ')' then (if sawComma then true else commaThenParen rest false)
    else if c = ' ' ∨ c = chr10 ∨ c = chr9 then commaThenParen rest sawComma
    else commaThenParen rest false

/-- Whether the SQL text contains a comma directly (up to whitespace)
before a closing parenthesis. -/
def trailingCommaInList (sql : String) : Bool :=
  commaThenParen sql.toList false

/-- bun:sqlite `Database.exec` as exercised by this repository: SQLite
parses a statement before executing it, and a table column list terminated
by a comma is rejected at parse time with this message — before anything,
`IF NOT EXISTS` included, takes effect.  No other statement issued by
core.ts is malformed, so all other SQL is accepted. -/
def dbExec (sql : String) : Except String Unit :=
  if trailingCommaInList sql then .error "near \")\": syntax error" else .ok ()

/-- `initializeDb` (core.ts:17-34): execute the two CREATE TABLE
statements; already the first one throws the parse error. -/
def initDb : Except String Unit :=
  match dbExec graphsDDL with
  | .error e => .error e
  | .ok _ => dbExec runsDDL

/-- The prepared `INSERT INTO Runs ... .run(...)` statements (core.ts:
115-116, 128-129, 133-134): `Runs.id` is `TEXT PRIMARY KEY` (core.ts:25),
so a row whose `id` is already present is rejected with the
UNIQUE-constraint error instead of being appended.  The engine binds the
fresh per-run `runId` as `id` of every row, so collisions arise exactly
among the rows of a single run. -/
def insertStep (s : RState) (r : StepRow) : Except String RState :=
  if s.steps.any (fun row => row.id == r.id) then
    .error "UNIQUE constraint failed: Runs.id"
  else .ok ⟨s.steps ++ [r], s.waits⟩

/-- Message of the TypeError raised by reading a property of `undefined`,
as happens when a node identity does not resolve in `nodeMap`. -/
def missingNodeMsg : String := "TypeError: Cannot read properties of undefined"

/-- The callback passed to `retry` by `executeNode` (core.ts:124-137), for
a resolved node.  State: the run store plus the captured mutable
`nextNodeId` cell.  The try block runs `exec`, computes the routing and
executes the success INSERT (success = 1, routed = identity or "END"); a
throw from `exec` OR from that INSERT (the UNIQUE-constraint violation)
lands in the catch block, which nulls `nextNodeId` and executes the
failure INSERT (output = the caught error serialized, routed = the node
identity, success = 0); if that insert itself throws — it does whenever a
row of this run already exists — its error escapes the catch block to
`retry`, otherwise the catch throws `Error("Node failed to execute")`. -/
def nodeOp {V : Type} (g : GraphRunner V) (node : GraphNode V) (inp : V)
    (runId graphId : String) (attempt : Nat) (st : RState × Option String) :
    Except String V × (RState × Option String) :=
  match node.exec attempt inp with
  | .ok out =>
    let nid := node.routing out
    let row : StepRow :=
      ⟨runId, graphId, node.nodeType, g.ser inp, g.ser out,
        (match truthy nid with | some r => r | none => "END"),
        g.clock st.1.steps.length, 1⟩
    match insertStep st.1 row with
    | .ok s1 => (.ok out, (s1, nid))
    | .error einsert =>
      let frow : StepRow :=
        ⟨runId, graphId, node.nodeType, g.ser inp, einsert, node.nodeType,
          g.clock st.1.steps.length, 0⟩
      match insertStep st.1 frow with
      | .ok s2 => (.error "Node failed to execute", (s2, none))
      | .error e2 => (.error e2, (st.1, none))
  | .error e =>
    let frow : StepRow :=
      ⟨runId, graphId, node.nodeType, g.ser inp, e, node.nodeType,
        g.clock st.1.steps.length, 0⟩
    match insertStep st.1 frow with
    | .ok s1 => (.error "Node failed to execute", (s1, none))
    | .error e2 => (.error e2, (st.1, none))

/-- The callback as it behaves when `node` is `undefined` (an unresolved
identity): `node.exec(input)` throws a TypeError, the catch block sets
`nextNodeId = null` and then itself throws a TypeError at
`String(node.nodeType)` before reaching the insert, so no row is written
and the TypeError propagates to `retry`. -/
def missingOp {V : Type} (_attempt : Nat) (st : RState × Option String) :
    Except String V × (RState × Option String) :=
  (.error missingNodeMsg, (st.1, none))

/-- The backoff effect of core.ts:11 as observed through the run state. -/
def engineWait (a : Nat) (st : RState × Option String) : RState × Option String :=
  (pushWait st.1 (1000 * (a + 1) * (a + 1)), st.2)

/-- `executeNode` (core.ts:122-139): wrap the node callback in
`retry(..., 3, 1)` and return the output together with the captured
`nextNodeId` cell and the updated store state. -/
def executeNode {V : Type} (g : GraphRunner V) (onode : Option (GraphNode V))
    (inp : V) (runId graphId : String) (s : RState) :
    Except String V × Option String × RState :=
  let r :=
    match onode with
    | some node => retry (nodeOp g node inp runId graphId) engineWait 3 1 none (s, none)
    | none => retry (fun a st => missingOp a st) engineWait 3 1 none (s, none)
  (r.1, r.2.2, r.2.1)

/-- The code after the traversal loop (core.ts:114-119): if `numExecutions`
equals the cap, execute the cap INSERT (output column =
"MAX ITERATIONS reached", routed = the current node identity, success = 0)
— which, like every Runs INSERT, throws the UNIQUE-constraint error when a
row of this run already exists — and return the last output;
`String(nextNode.nodeType)` throws a TypeError when `nextNode` is
`undefined`, before the insert is reached. -/
def runExit {V : Type} (g : GraphRunner V) (runId graphId : String)
    (nextNode : Option (GraphNode V)) (input output : V) (numExecutions : Nat)
    (s : RState) : Except String V × RState :=
  if numExecutions = MAX_NODE_EXECUTIONS then
    match nextNode with
    | none => (.error missingNodeMsg, s)
    | some node =>
      match insertStep s
        ⟨runId, graphId, node.nodeType, g.ser input, "MAX ITERATIONS reached",
          node.nodeType, g.clock s.steps.length, 0⟩ with
      | .ok s1 => (.ok output, s1)
      | .error e => (.error e, s)
  else (.ok output, s)

/-- The traversal loop `while (nextNode && numExecutions < MAX_NODE_EXECUTIONS)`
(core.ts:106-113), with fuel = `MAX_NODE_EXECUTIONS - numExecutions` making
the `numExecutions < MAX_NODE_EXECUTIONS` guard structural.  Each iteration
deep-copies the previous output into `input` (values are pure here, so the
copy is the identity; the heap-level model of `structuredClone` is below),
executes the node, and then — only when the routed identity is truthy —
re-resolves `nextNode` (core.ts:111; on a `null` routing `nextNode` keeps
its previous value).  A thrown execution error propagates out of `run`. -/
def runLoop {V : Type} (g : GraphRunner V) (nodeMap : String → Option (GraphNode V))
    (runId graphId : String) :
    Nat → Option (GraphNode V) → V → V → Nat → RState → Except String V × RState
  | 0, nextNode, input, output, numExecutions, s =>
    runExit g runId graphId nextNode input output numExecutions s
  | fuel + 1, nextNode, input, output, numExecutions, s =>
    if nextNode.isSome then
      let input1 := output
      match executeNode g nextNode input1 runId graphId s with
      | (.error msg, _, s1) => (.error msg, s1)
      | (.ok out, cell, s1) =>
        let nn1 :=
          match truthy cell with
          | some nid => nodeMap nid
          | none => nextNode
        runLoop g nodeMap runId graphId fuel nn1 input1 out (numExecutions + 1) s1
    else runExit g runId graphId nextNode input output numExecutions s

/-- `GraphRunner.run` (core.ts:91-120), after the `Graphs` lookup resolved
`graphId`: resolve the start node (core.ts:97; no existence check), execute
it (core.ts:100), re-resolve `nextNode` only on a truthy routed identity
(core.ts:103), then run the traversal loop from `numExecutions = 1` and
apply the cap check (core.ts:114-118).  The store starts from the run's
own empty row set (the per-run `runId` is a fresh UUID, so rows of other
runs cannot collide with this run's inserts); note that in the shipped
program this method is unreachable, since construction throws. -/
def GraphRunner.run {V : Type} (g : GraphRunner V) (runId graphId : String) :
    Except String V × RState :=
  let nodeMap := mkNodeMap g.nodes
  let nextNode := nodeMap g.startNode
  match executeNode g nextNode g.input runId graphId ⟨[], []⟩ with
  | (.error msg, _, s1) => (.error msg, s1)
  | (.ok out, cell, s1) =>
    let nn1 :=
      match truthy cell with
      | some nid => nodeMap nid
      | none => nextNode
    runLoop g nodeMap runId graphId (MAX_NODE_EXECUTIONS - 1) nn1 g.input out 1 s1

/-- The `Graphs` find-or-create of the constructor (core.ts:76-80): SELECT
by `graphName`; only when no row exists, INSERT a fresh row.  In the
shipped program this code is unreachable (see `constructGraphRunner`). -/
def ensureGraph (freshId graphName : String) (rows : List GraphRow) : List GraphRow :=
  if rows.any (fun r => r.graphName == graphName) then rows
  else rows ++ [⟨freshId, graphName⟩]

/-- Number of `Graphs` rows with the given name. -/
def countGraph (graphName : String) (rows : List GraphRow) : Nat :=
  rows.countP (fun r => r.graphName == graphName)

/-- The `GraphRunner` constructor (core.ts:63-83): store the configuration,
then call `initializeDb` (line 76) — whose malformed DDL throws the SQLite
parse error — and only afterwards the `Graphs` find-or-create (77-80) and
the node-map registration (81-82).  The result is the `Graphs` table after
a successful construction, or the thrown error. -/
def constructGraphRunner {V : Type} (g : GraphRunner V) (freshId : String)
    (graphs : List GraphRow) : Except String (List GraphRow) :=
  match initDb with
  | .error e => .error e
  | .ok _ => .ok (ensureGraph freshId g.graphName graphs)

/-- Observable `Graphs` state across a construction attempt whose exception
the caller catches: a throwing constructor leaves the table unchanged. -/
def tryConstruct {V : Type} (g : GraphRunner V) (freshId : String)
    (graphs : List GraphRow) : List GraphRow :=
  match constructGraphRunner g freshId graphs with
  | .ok rows => rows
  | .error _ => graphs

/-- The `Graphs` lookup at the start of `run` (core.ts:92-95): resolve the
graph id by name (throwing "Could not find graphId" when absent), then run
the traversal.  The `Graphs` table itself is not modified. -/
def runEntry {V : Type} (g : GraphRunner V) (graphs : List GraphRow)
    (runId : String) : Except String V × RState :=
  match graphs.find? (fun r => r.graphName == g.graphName) with
  | none => (.error "Could not find graphId", ⟨[], []⟩)
  | some row => g.run runId row.id

/-- Shape invariant of every row the engine hands to the Runs INSERTs of a
given run: the `id` column holds the run identity (there is no separate
`runId` column), `graphId` holds the graph identity, and `success` is 0 or
1. -/
def rowOK (runId graphId : String) (r : StepRow) : Prop :=
  r.id = runId ∧ r.graphId = graphId ∧ (r.success = 0 ∨ r.success = 1)


/-! ## Heap model of `structuredClone` (core.ts:107)

The pure-value loop above cannot express object aliasing, so the deep-copy
claim is settled against a small JavaScript heap model: values are
primitives or references into a heap of objects, `readV` is the deep value
of a reference (with fuel, since the object graph is traversed), `cloneV`
is `structuredClone`, which copies every reached object to a fresh address
at the end of the heap, and `List.set` is in-place mutation of an object. -/

/-- A JavaScript value: a primitive or a reference to a heap object. -/
inductive JVal where
  | prim (s : String)
  | ref (a : Nat)
deriving Repr, DecidableEq

/-- A heap object: a list of named fields. -/
abbrev JObj := List (String × JVal)

/-- The heap: object addresses are list indices, allocation appends. -/
abbrev JHeap := List JObj

/-- The deep (fully dereferenced) value of a JavaScript value. -/
inductive JTree where
  | prim (s : String)
  | obj (fields : List (String × JTree))
  | broken
deriving Repr

/-- Deep read of a value: follow references and read every field, with
fuel bounding the dereference depth (`broken` on fuel exhaustion or a
dangling reference). -/
def readV (h : JHeap) (fuel : Nat) : JVal → JTree :=
  Nat.rec (motive := fun _ => JVal → JTree)
    (fun _ => .broken)
    (fun _ ih v =>
      match v with
      | .prim s => .prim s
      | .ref a =>
        match h[a]? with
        | none => .broken
        | some ob => .obj (ob.map (fun kv => (kv.1, ih kv.2))))
    fuel

/-- Clone every field of an object with the value-cloner `c`, threading the
output heap left to right. -/
def cloneFields (c : JVal → JHeap → Option (JVal × JHeap)) :
    JObj → JHeap → Option (JObj × JHeap)
  | [], out => some ([], out)
  | kv :: rest, out =>
    match c kv.2 out with
    | none => none
    | some (v', out') =>
      match cloneFields c rest out' with
      | none => none
      | some (rest', out'') => some ((kv.1, v') :: rest', out'')

/-- `structuredClone`: a primitive is returned as is; a reference is cloned
by cloning every field of the referenced object (reading the original heap
`h`) and allocating the copied object at a fresh address at the end of the
output heap.  Fuel bounds the depth; `none` on exhaustion or a dangling
reference. -/
def cloneV (h : JHeap) (fuel : Nat) : JVal → JHeap → Option (JVal × JHeap) :=
  Nat.rec (motive := fun _ => JVal → JHeap → Option (JVal × JHeap))
    (fun _ _ => none)
    (fun _ ih v out =>
      match v with
      | .prim s => some (.prim s, out)
      | .ref a =>
        match h[a]? with
        | none => none
        | some ob =>
          match cloneFields ih ob out with
          | none => none
          | some (flds, out') => some (.ref out'.length, out' ++ [flds]))
    fuel

/-- A value whose reference (if any) points at address `n` or beyond. -/
def valAtLeast (n : Nat) : JVal → Prop
  | .prim _ => True
  | .ref a => n ≤ a

/-- An object all of whose field values point at address `n` or beyond. -/
def objAtLeast (n : Nat) (o : JObj) : Prop :=
  ∀ kv ∈ o, valAtLeast n kv.2

/-- Every object stored at address `n` or beyond only references addresses
`n` or beyond (the freshly allocated clone segment is self-contained). -/
def segAtLeast (n : Nat) (h : JHeap) : Prop :=
  ∀ i ob, n ≤ i → h[i]? = some ob → objAtLeast n ob

/-! ## Concrete graphs used as witnesses and counterexamples -/

/-- Start node of the 3-node linear demo graph of the specification:
appends "b" and routes to Middle. -/
def startN : GraphNode String :=
  ⟨"Start", fun _ s => .ok (s ++ "b"), fun _ => some "Middle"⟩

/-- Middle node: appends "c" and routes to End. -/
def middleN : GraphNode String :=
  ⟨"Middle", fun _ s => .ok (s ++ "c"), fun _ => some "End"⟩

/-- End node: appends "d" and returns the termination sentinel. -/
def endN : GraphNode String :=
  ⟨"End", fun _ s => .ok (s ++ "d"), fun _ => none⟩

/-- The 3-node linear graph `Start -> Middle -> End` run on input "a". -/
def demoLinear : GraphRunner String :=
  ⟨"demo", [startN, middleN, endN], "Start", "a", fun s => s, fun n => toString n⟩

/-- Node A of a two-step graph: appends "x", routes to B. -/
def abNodeA : GraphNode String :=
  ⟨"A", fun _ s => .ok (s ++ "x"), fun _ => some "B"⟩

/-- Node B of the two-step graph: appends "y", routes to the unregistered
identity "NOPE". -/
def abNodeB : GraphNode String :=
  ⟨"B", fun _ s => .ok (s ++ "y"), fun _ => some "NOPE"⟩

/-- A two-step run used to inspect the persisted rows. -/
def demoAB : GraphRunner String :=
  ⟨"ab", [abNodeA, abNodeB], "A", "i", fun s => s, fun n => toString n⟩

/-- A node whose `exec` always throws. -/
def failN : GraphNode String :=
  ⟨"Boom", fun _ _ => .error "boom", fun _ => some "Next"⟩

/-- A node that would run after `failN` if the failure did not propagate. -/
def afterFailN : GraphNode String :=
  ⟨"Next", fun _ s => .ok s, fun _ => none⟩

/-- A two-node graph whose start node always fails. -/
def demoFail : GraphRunner String :=
  ⟨"fail", [failN, afterFailN], "Boom", "in", fun s => s, fun n => toString n⟩

/-- A healthy first node routing to the always-failing node `failN`. -/
def preFailN : GraphNode String :=
  ⟨"A", fun _ s => .ok (s ++ "x"), fun _ => some "Boom"⟩

/-- A graph whose SECOND executed node always fails. -/
def demoFailSecond : GraphRunner String :=
  ⟨"fail2", [preFailN, failN], "A", "in", fun s => s, fun n => toString n⟩

/-- Cycle node A: always succeeds and routes to B. -/
def cycA : GraphNode Unit :=
  ⟨"A", fun _ _ => .ok (), fun _ => some "B"⟩

/-- Cycle node B: always succeeds and routes back to A. -/
def cycB : GraphNode Unit :=
  ⟨"B", fun _ _ => .ok (), fun _ => some "A"⟩

/-- The two-node cycle `A -> B -> A` that the specification expects to run
into the iteration cap. -/
def demoCycle : GraphRunner Unit :=
  ⟨"cycle", [cycA, cycB], "A", (), fun _ => "null", fun n => toString n⟩

/-- First of two nodes sharing the identity "A". -/
def dupA1 : GraphNode String :=
  ⟨"A", fun _ s => .ok s, fun _ => none⟩

/-- Second of two nodes sharing the identity "A". -/
def dupA2 : GraphNode String :=
  ⟨"A", fun _ s => .ok (s ++ "2"), fun _ => some "A"⟩

/-- A runner configured with two nodes sharing the identity "A". -/
def demoDup : GraphRunner String :=
  ⟨"dup", [dupA1, dupA2], "A", "in", fun s => s, fun n => toString n⟩

/-- Operation failing on attempts 1 and 2 and succeeding from attempt 3 on. -/
def opFailTwice : Nat → Except String Nat :=
  fun a => if a ≤ 2 then .error ("boom" ++ toString a) else .ok 42

/-- A two-object heap: object 0 holds a primitive field, object 1
references object 0. -/
def demoHeap : JHeap := [[("x", JVal.prim "1")], [("y", JVal.ref 0)]]

/-! ## Equation lemmas for `retry` -/

theorem retry_of_exhaust {T St : Type} (op : Nat → St → Except String T × St)
    (wait : Nat → St → St) {maxAttempt attempt : Nat} (lastErr : Option String)
    (st : St) (h : maxAttempt < attempt) :
    retry op wait maxAttempt attempt lastErr st = (.error (errMsg lastErr), st) := by
  have hfuel : maxAttempt + 1 - attempt = 0 := by omega
  rw [retry, hfuel, retryAux]

theorem retry_of_step {T St : Type} (op : Nat → St → Except String T × St)
    (wait : Nat → St → St) {maxAttempt attempt : Nat} (lastErr : Option String)
    (st : St) (h : attempt ≤ maxAttempt) :
    retry op wait maxAttempt attempt lastErr st =
      match op attempt st with
      | (.ok v, st') => (.ok v, st')
      | (.error e, st') =>
        retry op wait maxAttempt (attempt + 1) (some e) (wait attempt st') := by
  have hfuel : maxAttempt + 1 - attempt = (maxAttempt - attempt) + 1 := by omega
  have hfuel' : maxAttempt + 1 - (attempt + 1) = maxAttempt - attempt := by omega
  rw [retry, hfuel, retryAux, if_neg (by omega)]
  rcases hop : op attempt st with ⟨r, st'⟩
  cases r <;> simp [retry, hfuel']

/-! ## Attempt counts and backoff delays of the retry policy (C5, C7) -/

theorem retryCount_fail_all {T : Type} (op : Nat → Except String T) (m : Nat) :
    ∀ k a lastErr inv ws, m - a = k → 1 ≤ a → a ≤ m →
    (∀ i, a ≤ i → i ≤ m → ∃ e, op i = Except.error e) →
    ∃ e, op m = Except.error e ∧
      retry (countingOp op) backoff m a lastErr ⟨inv, ws⟩ =
        (.error e, ⟨inv + (m + 1 - a), ws ++ backoffList a (m + 1 - a)⟩) := by
  intro k
  induction k with
  | zero =>
    intro a lastErr inv ws hk h1 hm hf
    have ha : a = m := by omega
    obtain ⟨e, he⟩ := hf a (le_refl a) hm
    refine ⟨e, ha ▸ he, ?_⟩
    rw [retry_of_step _ _ _ _ (by omega)]
    simp only [countingOp, he]
    rw [retry_of_exhaust _ _ _ _ (by omega)]
    have h2 : m + 1 - a = 1 := by omega
    rw [h2]
    simp [backoff, errMsg, backoffList]
  | succ k ih =>
    intro a lastErr inv ws hk h1 hm hf
    have ha : a < m := by omega
    obtain ⟨ea, hea⟩ := hf a (le_refl a) (by omega)
    rw [retry_of_step _ _ _ _ (by omega)]
    simp only [countingOp, hea]
    obtain ⟨e, he, hr⟩ := ih (a + 1) (some ea) (inv + 1)
      (ws ++ [1000 * (a + 1) * (a + 1)]) (by omega) (by omega) (by omega)
      (fun i hi1 hi2 => hf i (by omega) hi2)
    refine ⟨e, he, ?_⟩
    rw [backoff, hr]
    have h2 : inv + 1 + (m + 1 - (a + 1)) = inv + (m + 1 - a) := by omega
    have h3 : m + 1 - a = (m - a) + 1 := by omega
    have h4 : m + 1 - (a + 1) = m - a := by omega
    rw [h2, h3, h4, backoffList, List.append_assoc]
    rfl

theorem retryCount_succeed {T : Type} (op : Nat → Except String T) (m k : Nat) (v : T) :
    ∀ j a lastErr inv ws, (k + 1) - a = j → 1 ≤ a → a ≤ k + 1 → k + 1 ≤ m →
    (∀ i, a ≤ i → i ≤ k → ∃ e, op i = Except.error e) →
    op (k + 1) = Except.ok v →
    retry (countingOp op) backoff m a lastErr ⟨inv, ws⟩ =
      (.ok v, ⟨inv + (k + 2 - a), ws ++ backoffList a (k + 1 - a)⟩) := by
  intro j
  induction j with
  | zero =>
    intro a lastErr inv ws hj h1 hk hm hf hs
    have ha : a = k + 1 := by omega
    rw [retry_of_step _ _ _ _ (by omega), ha]
    simp only [countingOp, hs]
    have h2 : k + 2 - (k + 1) = 1 := by omega
    have h3 : k + 1 - (k + 1) = 0 := by omega
    rw [h2, h3]
    simp [backoffList]
  | succ j ih =>
    intro a lastErr inv ws hj h1 hk hm hf hs
    have ha : a ≤ k := by omega
    obtain ⟨ea, hea⟩ := hf a (le_refl a) ha
    rw [retry_of_step _ _ _ _ (by omega)]
    simp only [countingOp, hea]
    rw [backoff,
      ih (a + 1) (some ea) (inv + 1) (ws ++ [1000 * (a + 1) * (a + 1)]) (by omega)
        (by omega) (by omega) hm (fun i hi1 hi2 => hf i (by omega) hi2) hs]
    have h2 : inv + 1 + (k + 2 - (a + 1)) = inv + (k + 2 - a) := by omega
    have h3 : k + 1 - a = (k - a) + 1 := by omega
    have h4 : k + 1 - (a + 1) = k - a := by omega
    rw [h2, h3, h4, backoffList, List.append_assoc]
    rfl

theorem backoffList_eq_range :
    ∀ n a, backoffList a n =
      (List.range n).map (fun i => 1000 * (a + i + 1) * (a + i + 1)) := by
  intro n
  induction n with
  | zero => intro a; rfl
  | succ n ih =>
    intro a
    rw [backoffList, ih (a + 1), List.range_succ_eq_map, List.map_cons, List.map_map]
    simp only [List.cons.injEq]
    refine ⟨by ring_nf, ?_⟩
    refine List.map_congr_left ?_
    intro i _
    simp only [Function.comp_apply, Nat.succ_eq_add_one]
    ring_nf

/-- C5: for an operation failing `k` times and then succeeding, `retry`
with `maxAttempt = m` returns the eventual success after exactly `k + 1`
invocations when `k < m`; when `k ≥ m` it makes exactly `m` invocations and
throws an error wrapping the last underlying failure's message. -/
theorem retryPolicy_attempt_counts {T : Type} (op : Nat → Except String T)
    (k m : Nat) (v : T)
    (hf : ∀ a, 1 ≤ a → a ≤ k → ∃ e, op a = Except.error e)
    (hs : op (k + 1) = Except.ok v) :
    (k < m → (retryCount op m).1 = Except.ok v ∧
      (retryCount op m).2.invocations = k + 1) ∧
    (1 ≤ m → m ≤ k → (retryCount op m).2.invocations = m ∧
      ∃ e, op m = Except.error e ∧ (retryCount op m).1 = Except.error e) := by
  constructor
  · intro hkm
    have h := retryCount_succeed op m k v k 1 none 0 [] (by omega) (le_refl 1)
      (by omega) (by omega) (fun i hi1 hi2 => hf i hi1 hi2) hs
    rw [retryCount, h]
    exact ⟨rfl, by simp⟩
  · intro hm1 hmk
    obtain ⟨e, he, hr⟩ := retryCount_fail_all op m (m - 1) 1 none 0 []
      (by omega) (le_refl 1) hm1 (fun i hi1 hi2 => hf i hi1 (by omega))
    rw [retryCount, hr]
    exact ⟨by simp, e, he, rfl⟩

/-- C5 witness: `opFailTwice` fails on attempts 1 and 2 and succeeds on
attempt 3; with `maxAttempt = 3` the success is returned after 3
invocations, with `maxAttempt = 2` exactly 2 invocations happen and the
last failure is rethrown. -/
theorem retryPolicy_attempt_counts_witness :
    (∀ a, 1 ≤ a → a ≤ 2 → ∃ e, opFailTwice a = Except.error e) ∧
    opFailTwice 3 = Except.ok 42 ∧
    ((retryCount opFailTwice 3).1 = Except.ok 42 ∧
      (retryCount opFailTwice 3).2.invocations = 3) ∧
    ((retryCount opFailTwice 2).2.invocations = 2 ∧
      ∃ e, opFailTwice 2 = Except.error e ∧
        (retryCount opFailTwice 2).1 = Except.error e) := by
  have hf : ∀ a, 1 ≤ a → a ≤ 2 → ∃ e, opFailTwice a = Except.error e := by
    intro a h1 h2
    refine ⟨"boom" ++ toString a, ?_⟩
    unfold opFailTwice
    rw [if_pos h2]
  refine ⟨hf, rfl, ?_, ?_⟩
  · exact (retryPolicy_attempt_counts opFailTwice 2 3 42 hf rfl).1 (by omega)
  · exact (retryPolicy_attempt_counts opFailTwice 2 2 42 hf rfl).2 (by omega) (by omega)

/-- C7: in a run of the retry policy where attempts `1..k` fail and attempt
`k+1` succeeds (`k < m`), the backoff awaited after the failed attempt `a`
is exactly `1000 * (a + 1)^2` milliseconds: the recorded waits are
`[4000, 9000, ...]` in attempt order. -/
theorem retryPolicy_backoff_schedule {T : Type} (op : Nat → Except String T)
    (k m : Nat) (v : T) (hkm : k < m)
    (hf : ∀ a, 1 ≤ a → a ≤ k → ∃ e, op a = Except.error e)
    (hs : op (k + 1) = Except.ok v) :
    (retryCount op m).2.waits =
      (List.range k).map (fun i => 1000 * (i + 2) * (i + 2)) := by
  have h := retryCount_succeed op m k v k 1 none 0 [] (by omega) (le_refl 1)
    (by omega) (by omega) (fun i hi1 hi2 => hf i hi1 hi2) hs
  rw [retryCount, h]
  simp only [List.nil_append]
  rw [backoffList_eq_range]
  refine List.map_congr_left ?_
  intro i _
  congr 1 <;> omega

/-- C7 witness: two failed attempts then success with `maxAttempt = 3`
yields the waits `[4000, 9000]`, i.e. `1000 * 2^2` after attempt 1 and
`1000 * 3^2` after attempt 2. -/
theorem retryPolicy_backoff_schedule_witness :
    (∀ a, 1 ≤ a → a ≤ 2 → ∃ e, opFailTwice a = Except.error e) ∧
    opFailTwice 3 = Except.ok 42 ∧
    (retryCount opFailTwice 3).2.waits = [4000, 9000] := by
  have hf : ∀ a, 1 ≤ a → a ≤ 2 → ∃ e, opFailTwice a = Except.error e := by
    intro a h1 h2
    refine ⟨"boom" ++ toString a, ?_⟩
    unfold opFailTwice
    rw [if_pos h2]
  refine ⟨hf, rfl, ?_⟩
  rw [retryPolicy_backoff_schedule opFailTwice 2 3 42 (by omega) hf rfl]
  rfl

/-! ## Engine lemmas shared by the run-level claims -/

theorem runLoop_zero {V : Type} (g : GraphRunner V)
    (nodeMap : String → Option (GraphNode V)) (runId graphId : String)
    (nn : Option (GraphNode V)) (inp out : V) (num : Nat) (s : RState) :
    runLoop g nodeMap runId graphId 0 nn inp out num s =
      runExit g runId graphId nn inp out num s := rfl

theorem runLoop_succ_some {V : Type} (g : GraphRunner V)
    (nodeMap : String → Option (GraphNode V)) (runId graphId : String)
    (fuel : Nat) (node : GraphNode V) (inp out : V) (num : Nat) (s : RState) :
    runLoop g nodeMap runId graphId (fuel + 1) (some node) inp out num s =
      match executeNode g (some node) out runId graphId s with
      | (.error msg, _, s1) => (.error msg, s1)
      | (.ok o, cell, s1) =>
        runLoop g nodeMap runId graphId fuel
          (match truthy cell with | some nid => nodeMap nid | none => some node)
          out o (num + 1) s1 := rfl

theorem runLoop_succ_none {V : Type} (g : GraphRunner V)
    (nodeMap : String → Option (GraphNode V)) (runId graphId : String)
    (fuel : Nat) (inp out : V) (num : Nat) (s : RState) :
    runLoop g nodeMap runId graphId (fuel + 1) none inp out num s =
      runExit g runId graphId none inp out num s := rfl

theorem mkNodeMap_mem_aux {V : Type} :
    ∀ (ns : List (GraphNode V)) (m : String → Option (GraphNode V)) (t : String)
      (n : GraphNode V),
      (ns.foldl (fun m n => fun k => if k = n.nodeType then some n else m k) m) t =
        some n →
      n ∈ ns ∨ m t = some n := by
  intro ns
  induction ns with
  | nil => intro m t n h; exact Or.inr h
  | cons nd rest ih =>
    intro m t n h
    rcases ih _ t n h with h1 | h1
    · exact Or.inl (List.mem_cons_of_mem _ h1)
    · simp only at h1
      by_cases ht : t = nd.nodeType
      · rw [if_pos ht] at h1
        cases h1
        exact Or.inl (List.mem_cons_self _ _)
      · rw [if_neg ht] at h1
        exact Or.inr h1

theorem mkNodeMap_mem {V : Type} (ns : List (GraphNode V)) (t : String)
    (n : GraphNode V) (h : mkNodeMap ns t = some n) : n ∈ ns := by
  rcases mkNodeMap_mem_aux ns _ t n h with h1 | h1
  · exact h1
  · cases h1

theorem mkNodeMap_append_last {V : Type} (ns : List (GraphNode V)) (n : GraphNode V) :
    mkNodeMap (ns ++ [n]) n.nodeType = some n := by
  simp [mkNodeMap, List.foldl_append]

theorem retryAux_preserve {T St : Type} (op : Nat → St → Except String T × St)
    (wait : Nat → St → St) (P : St → Prop)
    (hop : ∀ a st, P st → P (op a st).2)
    (hw : ∀ a st, P st → P (wait a st)) :
    ∀ fuel ma a lastErr st, P st → P (retryAux op wait ma fuel a lastErr st).2 := by
  intro fuel
  induction fuel with
  | zero => intro ma a lastErr st hst; simpa [retryAux] using hst
  | succ fuel ih =>
    intro ma a lastErr st hst
    rw [retryAux]
    split
    · exact hst
    · have hst1 := hop a st hst
      rcases hop2 : op a st with ⟨r, st1⟩
      rw [hop2] at hst1
      cases r with
      | ok v => simpa using hst1
      | error e => exact ih ma (a + 1) (some e) (wait a st1) (hw a st1 hst1)

theorem nodeOp_blocked {V : Type} (g : GraphRunner V) (node : GraphNode V)
    (inp : V) (runId graphId : String) (a : Nat) (st : RState × Option String)
    (hany : st.1.steps.any (fun row => row.id == runId) = true) :
    nodeOp g node inp runId graphId a st =
      (.error "UNIQUE constraint failed: Runs.id", (st.1, none)) := by
  simp only [nodeOp]
  rcases hx : node.exec a inp with e | out
  · simp [insertStep, hany]
  · simp [insertStep, hany]

theorem executeNode_blocked {V : Type} (g : GraphRunner V) (node : GraphNode V)
    (inp : V) (runId graphId : String) (s : RState)
    (hany : s.steps.any (fun row => row.id == runId) = true) :
    executeNode g (some node) inp runId graphId s =
      (.error "UNIQUE constraint failed: Runs.id", none,
        ⟨s.steps, s.waits ++ [4000, 9000, 16000]⟩) := by
  simp only [executeNode]
  rw [retry_of_step _ _ _ _ (by omega),
    nodeOp_blocked g node inp runId graphId 1 (s, none) hany]
  simp only [engineWait, pushWait]
  rw [retry_of_step _ _ _ _ (by omega),
    nodeOp_blocked g node inp runId graphId 2 _ hany]
  simp only [engineWait, pushWait]
  rw [retry_of_step _ _ _ _ (by omega),
    nodeOp_blocked g node inp runId graphId 3 _ hany]
  simp only [engineWait, pushWait]
  rw [retry_of_exhaust _ _ _ _ (by omega)]
  simp [errMsg, List.append_assoc]

theorem runLoop_blocked {V : Type} (g : GraphRunner V)
    (nodeMap : String → Option (GraphNode V)) (runId graphId : String)
    (fuel : Nat) (node : GraphNode V) (inp out : V) (num : Nat) (s : RState)
    (hany : s.steps.any (fun row => row.id == runId) = true) :
    runLoop g nodeMap runId graphId (fuel + 1) (some node) inp out num s =
      (.error "UNIQUE constraint failed: Runs.id",
        ⟨s.steps, s.waits ++ [4000, 9000, 16000]⟩) := by
  rw [runLoop_succ_some, executeNode_blocked g node out runId graphId s hany]

theorem executeNode_start_fail {V : Type} (g : GraphRunner V) (node : GraphNode V)
    (inp : V) (runId graphId : String) (s : RState) (e1 e2 e3 : String)
    (h1 : node.exec 1 inp = Except.error e1)
    (h2 : node.exec 2 inp = Except.error e2)
    (h3 : node.exec 3 inp = Except.error e3)
    (hfresh : s.steps.any (fun row => row.id == runId) = false) :
    executeNode g (some node) inp runId graphId s =
      (.error "UNIQUE constraint failed: Runs.id", none,
        ⟨s.steps ++
          [⟨runId, graphId, node.nodeType, g.ser inp, e1, node.nodeType,
            g.clock s.steps.length, 0⟩],
          s.waits ++ [4000, 9000, 16000]⟩) := by
  simp only [executeNode]
  rw [retry_of_step _ _ _ _ (by omega)]
  simp only [nodeOp, h1, insertStep, hfresh, Bool.false_eq_true, if_false,
    engineWait, pushWait]
  rw [retry_of_step _ _ _ _ (by omega)]
  simp only [nodeOp, h2, insertStep, List.any_append, hfresh, List.any_cons,
    List.any_nil, beq_self_eq_true, Bool.false_or, Bool.or_false, if_true,
    engineWait, pushWait]
  rw [retry_of_step _ _ _ _ (by omega)]
  simp only [nodeOp, h3, insertStep, List.any_append, hfresh, List.any_cons,
    List.any_nil, beq_self_eq_true, Bool.false_or, Bool.or_false, if_true,
    engineWait, pushWait]
  rw [retry_of_exhaust _ _ _ _ (by omega)]
  simp [errMsg, List.append_assoc]

theorem insertStep_rowOK (runId graphId : String) (r : StepRow)
    (hr : rowOK runId graphId r) (s s1 : RState)
    (hins : insertStep s r = Except.ok s1)
    (hall : ∀ row ∈ s.steps, rowOK runId graphId row)
    (hlen : s.steps.length ≤ 1) :
    (∀ row ∈ s1.steps, rowOK runId graphId row) ∧ s1.steps.length ≤ 1 := by
  simp only [insertStep] at hins
  split at hins
  · cases hins
  · rename_i hguard
    cases hins
    have hempty : s.steps = [] := by
      cases hs : s.steps with
      | nil => rfl
      | cons x t =>
        exfalso
        apply hguard
        rw [hs, List.any_cons]
        have hx := hall x (by rw [hs]; exact List.mem_cons_self _ _)
        simp [hx.1, hr.1]
    constructor
    · intro row hrow
      simp only [hempty, List.nil_append, List.mem_singleton] at hrow
      exact hrow ▸ hr
    · simp [hempty]

theorem nodeOp_P {V : Type} (g : GraphRunner V) (node : GraphNode V) (inp : V)
    (runId graphId : String) (a : Nat) (st : RState × Option String)
    (hall : ∀ row ∈ st.1.steps, rowOK runId graphId row)
    (hlen : st.1.steps.length ≤ 1) :
    (∀ row ∈ (nodeOp g node inp runId graphId a st).2.1.steps,
      rowOK runId graphId row) ∧
    (nodeOp g node inp runId graphId a st).2.1.steps.length ≤ 1 := by
  simp only [nodeOp]
  split
  · split
    · rename_i s1 hins
      exact insertStep_rowOK runId graphId _ ⟨rfl, rfl, Or.inr rfl⟩ st.1 s1 hins hall hlen
    · split
      · rename_i s2 hins2
        exact insertStep_rowOK runId graphId _ ⟨rfl, rfl, Or.inl rfl⟩ st.1 s2 hins2 hall hlen
      · exact ⟨hall, hlen⟩
  · split
    · rename_i s1 hins
      exact insertStep_rowOK runId graphId _ ⟨rfl, rfl, Or.inl rfl⟩ st.1 s1 hins hall hlen
    · exact ⟨hall, hlen⟩

theorem executeNode_P {V : Type} (g : GraphRunner V) (onode : Option (GraphNode V))
    (inp : V) (runId graphId : String) (s : RState)
    (hall : ∀ row ∈ s.steps, rowOK runId graphId row) (hlen : s.steps.length ≤ 1) :
    (∀ row ∈ (executeNode g onode inp runId graphId s).2.2.steps,
      rowOK runId graphId row) ∧
    (executeNode g onode inp runId graphId s).2.2.steps.length ≤ 1 := by
  have key : ∀ op : Nat → RState × Option String → Except String V × (RState × Option String),
      (∀ a st, ((∀ row ∈ (st : RState × Option String).1.steps, rowOK runId graphId row) ∧
          st.1.steps.length ≤ 1) →
        ((∀ row ∈ (op a st).2.1.steps, rowOK runId graphId row) ∧
          (op a st).2.1.steps.length ≤ 1)) →
      ((∀ row ∈ (retry op engineWait 3 1 none (s, none)).2.1.steps,
          rowOK runId graphId row) ∧
        (retry op engineWait 3 1 none (s, none)).2.1.steps.length ≤ 1) := by
    intro op hop
    exact retryAux_preserve op engineWait
      (fun st => (∀ row ∈ st.1.steps, rowOK runId graphId row) ∧ st.1.steps.length ≤ 1)
      hop (fun a st hst => by simpa [engineWait, pushWait] using hst)
      _ 3 1 none (s, none) ⟨hall, hlen⟩
  cases onode with
  | none =>
    simp only [executeNode]
    exact key _ (fun a st hst => by simpa [missingOp] using hst)
  | some node =>
    simp only [executeNode]
    exact key _ (fun a st hst => nodeOp_P g node inp runId graphId a st hst.1 hst.2)

theorem runExit_cap_some {V : Type} (g : GraphRunner V) (runId graphId : String)
    (node : GraphNode V) (inp out : V) (s : RState) :
    runExit g runId graphId (some node) inp out MAX_NODE_EXECUTIONS s =
      match insertStep s
        ⟨runId, graphId, node.nodeType, g.ser inp, "MAX ITERATIONS reached",
          node.nodeType, g.clock s.steps.length, 0⟩ with
      | .ok s1 => (.ok out, s1)
      | .error e => (.error e, s) := rfl

theorem runExit_P {V : Type} (g : GraphRunner V) (runId graphId : String)
    (nn : Option (GraphNode V)) (inp out : V) (num : Nat) (s : RState)
    (hall : ∀ row ∈ s.steps, rowOK runId graphId row) (hlen : s.steps.length ≤ 1) :
    (∀ row ∈ (runExit g runId graphId nn inp out num s).2.steps,
      rowOK runId graphId row) ∧
    (runExit g runId graphId nn inp out num s).2.steps.length ≤ 1 := by
  by_cases hnum : num = MAX_NODE_EXECUTIONS
  · subst hnum
    cases nn with
    | none => exact ⟨hall, hlen⟩
    | some node =>
      rw [runExit_cap_some]
      rcases hins : insertStep s
          ⟨runId, graphId, node.nodeType, g.ser inp, "MAX ITERATIONS reached",
            node.nodeType, g.clock s.steps.length, 0⟩ with e | s1
      · exact ⟨hall, hlen⟩
      · exact insertStep_rowOK runId graphId _ ⟨rfl, rfl, Or.inl rfl⟩ s s1 hins hall hlen
  · unfold runExit
    rw [if_neg hnum]
    exact ⟨hall, hlen⟩

theorem runLoop_P {V : Type} (g : GraphRunner V)
    (nodeMap : String → Option (GraphNode V)) (runId graphId : String) :
    ∀ fuel (nn : Option (GraphNode V)) (inp out : V) (num : Nat) (s : RState),
      (∀ row ∈ s.steps, rowOK runId graphId row) → s.steps.length ≤ 1 →
      (∀ row ∈ (runLoop g nodeMap runId graphId fuel nn inp out num s).2.steps,
        rowOK runId graphId row) ∧
      (runLoop g nodeMap runId graphId fuel nn inp out num s).2.steps.length ≤ 1 := by
  intro fuel
  induction fuel with
  | zero =>
    intro nn inp out num s hall hlen
    exact runExit_P g runId graphId nn inp out num s hall hlen
  | succ fuel ih =>
    intro nn inp out num s hall hlen
    simp only [runLoop]
    split
    · rcases he : executeNode g nn out runId graphId s with ⟨r, cell, s1⟩
      have hP := executeNode_P g nn out runId graphId s hall hlen
      rw [he] at hP
      cases r with
      | error msg => exact hP
      | ok o => exact ih _ _ o (num + 1) s1 hP.1 hP.2
    · exact runExit_P g runId graphId nn inp out num s hall hlen

/-! ## C1: the termination-sentinel scenario cannot run (code bug)

The specification's 3-node scenario expects `run("a")` to stop at the
sentinel with "abcd" and 3 success Steps.  The program defeats it three
times over: construction throws at `initializeDb`'s malformed DDL; given
an initialized store, the second node execution dies on the `Runs.id`
PRIMARY KEY (the success INSERT and then the catch's failure INSERT both
collide), so `run` rejects with the constraint error after persisting one
Step; and independently, the update
`nextNodeId ? nextNode = this.nodeMap[String(nextNodeId)] : null`
(core.ts:103, 111) never clears `nextNode` on a `null` routing, so even
with an infallible store the loop would re-execute the End node instead of
stopping — its success row records `routed = "END"` while the loop goes
on. -/

/-- C1: evaluating the engine on the specification's own 3-node linear
scenario.  Construction throws the SQLite parse error; granting an
initialized store, `run("a")` rejects with the UNIQUE-constraint error
during the second execution, persisting only the Start node's row (never 3
success Steps, never the result "abcd"); and the loop entered at the End
node — whose routing is the termination sentinel — records `routed="END"`
but then re-executes End (three retried attempts, backoffs 4000/9000/16000
ms) instead of stopping with `ok "abcd"`. -/
theorem linear_sentinel_scenario_eval :
    constructGraphRunner demoLinear "u0" [] = .error "near \")\": syntax error" ∧
    (demoLinear.run "r0" "g0").1 = .error "UNIQUE constraint failed: Runs.id" ∧
    (demoLinear.run "r0" "g0").2.steps.map (fun r => r.nodeType) = ["Start"] ∧
    runLoop demoLinear (mkNodeMap demoLinear.nodes) "r" "g" 98 (some endN)
        "ab" "abc" 2 ⟨[], []⟩ =
      (.error "UNIQUE constraint failed: Runs.id",
        ⟨[⟨"r", "g", "End", "abc", "abcd", "END", "0", 1⟩],
          [4000, 9000, 16000]⟩) := by
  refine ⟨by rfl, by rfl, by rfl, by rfl⟩

/-! ## C2: failure Steps under retry exhaustion -/

/-- C2 counterexample: when the always-throwing node is the SECOND node of
the run, zero failure Steps are persisted for it — each attempt's failure
INSERT already violates the `Runs.id` primary key (the first node's row
holds the id) — refuting "exactly one failure Step is persisted for that
node"; the run still fails and no subsequent node executes. -/
theorem later_node_failure_step_cex :
    (demoFailSecond.run "r5" "g5").1 =
      Except.error "UNIQUE constraint failed: Runs.id" ∧
    ((demoFailSecond.run "r5" "g5").2.steps.filter
      (fun r => r.success == 0)).length = 0 ∧
    (demoFailSecond.run "r5" "g5").2.steps.length = 1 := by
  refine ⟨by rfl, by rfl, by rfl⟩

/-- C2 (amended): given an initialized store, a start node whose `exec`
throws on all 3 attempts makes `run` fail after exactly three attempts
with a retry-exhausted error wrapping the last underlying failure — the
UNIQUE-constraint message of the later attempts' failure INSERTs — and
exactly ONE failure Step (the first attempt's: success = 0, routed = the
node's own identity) is persisted; no subsequent node executes.  When the
failing node is a later node, NO failure Step is persisted, because every
failure INSERT collides with the run's existing row (second conjunct). -/
theorem run_retry_exhaustion {V : Type} (g : GraphRunner V)
    (runId graphId : String) (node : GraphNode V)
    (hstart : mkNodeMap g.nodes g.startNode = some node)
    (hfail : ∀ a, 1 ≤ a → a ≤ 3 → ∃ e, node.exec a g.input = Except.error e) :
    ((g.run runId graphId).1 = Except.error "UNIQUE constraint failed: Runs.id" ∧
      ∃ e1, node.exec 1 g.input = Except.error e1 ∧
        (g.run runId graphId).2.steps =
          [⟨runId, graphId, node.nodeType, g.ser g.input, e1, node.nodeType,
            g.clock 0, 0⟩]) ∧
    (∀ (node1 : GraphNode V) (inp : V) (s : RState),
      s.steps.any (fun row => row.id == runId) = true →
      executeNode g (some node1) inp runId graphId s =
        (.error "UNIQUE constraint failed: Runs.id", none,
          ⟨s.steps, s.waits ++ [4000, 9000, 16000]⟩)) := by
  obtain ⟨e1, he1⟩ := hfail 1 (by omega) (by omega)
  obtain ⟨e2, he2⟩ := hfail 2 (by omega) (by omega)
  obtain ⟨e3, he3⟩ := hfail 3 (by omega) (by omega)
  have hex := executeNode_start_fail g node g.input runId graphId ⟨[], []⟩ e1 e2 e3
    he1 he2 he3 (by rfl)
  simp only [List.length_nil, List.nil_append] at hex
  have hrun : g.run runId graphId =
      (.error "UNIQUE constraint failed: Runs.id",
        ⟨[⟨runId, graphId, node.nodeType, g.ser g.input, e1, node.nodeType,
          g.clock 0, 0⟩], [4000, 9000, 16000]⟩) := by
    simp only [GraphRunner.run, hstart, hex]
  rw [hrun]
  exact ⟨⟨rfl, e1, he1, rfl⟩,
    fun node1 inp s hany => executeNode_blocked g node1 inp runId graphId s hany⟩

/-- C2 witness: the amended theorem applied to the concrete graph whose
start node always throws. -/
theorem run_retry_exhaustion_witness :
    mkNodeMap demoFail.nodes demoFail.startNode = some failN ∧
    (∀ a, 1 ≤ a → a ≤ 3 → ∃ e, failN.exec a demoFail.input = Except.error e) ∧
    (((demoFail.run "r2" "g2").1 =
        Except.error "UNIQUE constraint failed: Runs.id" ∧
      ∃ e1, failN.exec 1 demoFail.input = Except.error e1 ∧
        (demoFail.run "r2" "g2").2.steps =
          [⟨"r2", "g2", failN.nodeType, demoFail.ser demoFail.input, e1,
            failN.nodeType, demoFail.clock 0, 0⟩]) ∧
    (∀ (node1 : GraphNode String) (inp : String) (s : RState),
      s.steps.any (fun row => row.id == "r2") = true →
      executeNode demoFail (some node1) inp "r2" "g2" s =
        (.error "UNIQUE constraint failed: Runs.id", none,
          ⟨s.steps, s.waits ++ [4000, 9000, 16000]⟩))) := by
  have hf : ∀ a, 1 ≤ a → a ≤ 3 → ∃ e, failN.exec a demoFail.input = Except.error e :=
    fun a _ _ => ⟨"boom", rfl⟩
  exact ⟨rfl, hf, run_retry_exhaustion demoFail "r2" "g2" failN rfl hf⟩

/-! ## C3: the persisted row shape -/

/-- C3 counterexample: in the two-step run, the single persisted Step's
`id` is the run identity "r1" — there is no per-Step unique id and no
separate `runId` column — and the second Step is rejected outright with
the UNIQUE-constraint error precisely because its `id` would equal the
first row's, so two Steps of one Run with different id values never
exist. -/
theorem step_rows_distinct_id_cex :
    (demoAB.run "r1" "g1").2.steps.map (fun r => r.id) = ["r1"] ∧
    (demoAB.run "r1" "g1").1 =
      Except.error "UNIQUE constraint failed: Runs.id" := by
  refine ⟨by rfl, by rfl⟩

/-- C3 (amended): every Step row the engine persists carries the run
identity in its `id` column (declared TEXT PRIMARY KEY) together with the
graph identity and a 0/1 success flag; since the schema has no separate
`runId` column and all of a run's inserts share that `id`, at most one
Step row per run is ever persisted. -/
theorem step_rows_share_run_id {V : Type} (g : GraphRunner V)
    (runId graphId : String) :
    (∀ r ∈ (g.run runId graphId).2.steps, rowOK runId graphId r) ∧
    (g.run runId graphId).2.steps.length ≤ 1 := by
  simp only [GraphRunner.run]
  rcases he : executeNode g (mkNodeMap g.nodes g.startNode) g.input runId graphId
      ⟨[], []⟩ with ⟨r, cell, s1⟩
  have hP := executeNode_P g (mkNodeMap g.nodes g.startNode) g.input runId graphId
    ⟨[], []⟩ (by simp) (by simp)
  rw [he] at hP
  cases r with
  | error msg => exact hP
  | ok out =>
    exact runLoop_P g (mkNodeMap g.nodes) runId graphId _ _ g.input out 1 s1
      hP.1 hP.2

/-- C3 witness: the shape theorem applied to the single row of the
concrete two-step run. -/
theorem step_rows_share_run_id_witness :
    (⟨"r1", "g1", "A", "i", "ix", "B", "0", 1⟩ : StepRow) ∈
      (demoAB.run "r1" "g1").2.steps ∧
    rowOK "r1" "g1" ⟨"r1", "g1", "A", "i", "ix", "B", "0", 1⟩ ∧
    (demoAB.run "r1" "g1").2.steps.length ≤ 1 := by
  have hm : (⟨"r1", "g1", "A", "i", "ix", "B", "0", 1⟩ : StepRow) ∈
      (demoAB.run "r1" "g1").2.steps := by decide
  exact ⟨hm, (step_rows_share_run_id demoAB "r1" "g1").1 _ hm,
    (step_rows_share_run_id demoAB "r1" "g1").2⟩

/-! ## C4: the iteration cap is unreachable (code bug) -/

/-- C4: the specification's own cap scenario — the two-node cycle
`A -> B -> A` — evaluated on the code.  Instead of 100 execution Steps
plus one cap Step and a normal return, the run dies during its SECOND
execution: the success INSERT collides with the first execution's row on
the `Runs.id` primary key, the catch's failure INSERT collides again,
retry exhausts, and `run` rejects with the constraint error holding
exactly one Step and no cap row (as shipped, construction throws at the
malformed DDL before any of this). -/
theorem cap_scenario_impossible_eval :
    (demoCycle.run "rc" "gc").1 =
      Except.error "UNIQUE constraint failed: Runs.id" ∧
    (demoCycle.run "rc" "gc").2.steps.length = 1 ∧
    ((demoCycle.run "rc" "gc").2.steps.filter
      (fun r => r.output == "MAX ITERATIONS reached")).length = 0 := by
  refine ⟨by rfl, by rfl, by rfl⟩

/-! ## C6: construction always throws, before any validation -/

/-- C6 counterexample: a perfectly well-configured runner (distinct
identities, registered start) fails construction with the very same SQLite
parse error as a runner with duplicate identities — the failure is
unconditional and is not a configuration error — and the node-map
registration logic itself silently lets the second duplicate win. -/
theorem constructor_fail_fast_cex :
    constructGraphRunner demoAB "u7" [] = .error "near \")\": syntax error" ∧
    constructGraphRunner demoDup "u8" [] = .error "near \")\": syntax error" ∧
    mkNodeMap [dupA1, dupA2] "A" = some dupA2 := by
  refine ⟨by rfl, by rfl, by rfl⟩

/-- C6 (amended): constructing a GraphRunner never performs configuration
validation and never raises a configuration error: for EVERY configuration
it throws the SQLite parse error of `initializeDb`'s trailing-comma CREATE
TABLE (the constructor's first call, before the node map exists), and the
registration logic resolves a duplicated identity to the LAST registered
node rather than failing. -/
theorem constructor_always_throws {V : Type} (g : GraphRunner V)
    (freshId : String) (rows : List GraphRow) (ns : List (GraphNode V))
    (n : GraphNode V) :
    constructGraphRunner g freshId rows = .error "near \")\": syntax error" ∧
    mkNodeMap (ns ++ [n]) n.nodeType = some n := by
  exact ⟨rfl, mkNodeMap_append_last ns n⟩

/-! ## C8: the Graphs row is never created (code bug) -/

/-- C8: constructing runners for a graph name produces NO Graphs row:
`initializeDb`, called first in the constructor (core.ts:76), throws the
parse error of its trailing-comma CREATE TABLE before the find-or-create
SELECT/INSERT (core.ts:77-80) can run, so after any number of construction
attempts from an empty store the `Graphs` table still has zero rows for
the name. -/
theorem graphs_row_never_created_eval :
    constructGraphRunner demoAB "u1" [] = .error "near \")\": syntax error" ∧
    tryConstruct demoAB "u2" (tryConstruct demoAB "u1" []) = [] ∧
    countGraph demoAB.graphName
      (tryConstruct demoAB "u2" (tryConstruct demoAB "u1" [])) = 0 := by
  refine ⟨by rfl, by rfl, by rfl⟩

/-! ## C10: behaviour when the execution count stands at the cap -/

/-- C10 counterexample: at the cap boundary, with the store in the only
shape a run that survived its first execution can have (one row carrying
the run identity), the post-loop code appends NOTHING: with a resolved
node the cap INSERT itself violates the `Runs.id` primary key and `run`
rejects with the constraint error, and with no resolved node it throws the
TypeError before the insert — refuting the claim that the cap Step is
appended even when no next node resolved. -/
theorem cap_step_blocked_cex :
    runExit demoCycle "rc" "gc" (some cycB) () () 100
        ⟨[⟨"rc", "gc", "A", "null", "null", "B", "0", 1⟩], []⟩ =
      (.error "UNIQUE constraint failed: Runs.id",
        ⟨[⟨"rc", "gc", "A", "null", "null", "B", "0", 1⟩], []⟩) ∧
    runExit demoCycle "rc" "gc" none () () 100
        ⟨[⟨"rc", "gc", "A", "null", "null", "B", "0", 1⟩], []⟩ =
      (.error missingNodeMsg,
        ⟨[⟨"rc", "gc", "A", "null", "null", "B", "0", 1⟩], []⟩) := by
  refine ⟨by rfl, by rfl⟩

/-- C10 (amended): when the loop exits with the count exactly at the cap
and a Step of the run is already persisted (true of any run that got past
its first execution), the post-loop code never records the cap Step: with
a resolved `nextNode` the cap INSERT violates the `Runs.id` primary key
and `run` rejects with the constraint error, and with no resolved node it
throws the TypeError from `String(nextNode.nodeType)` before the insert.
Moreover the count can never reach the cap: once a Step row exists, every
further loop iteration fails after three retried attempts (third
conjunct), so no run survives past its second execution. -/
theorem cap_exit_behavior {V : Type} (g : GraphRunner V)
    (runId graphId : String) (node : GraphNode V) (inp out : V) (s : RState)
    (hblocked : s.steps.any (fun row => row.id == runId) = true) :
    runExit g runId graphId (some node) inp out MAX_NODE_EXECUTIONS s =
      (.error "UNIQUE constraint failed: Runs.id", s) ∧
    runExit g runId graphId none inp out MAX_NODE_EXECUTIONS s =
      (.error missingNodeMsg, s) ∧
    (∀ (fuel : Nat) (node1 : GraphNode V) (inp1 out1 : V) (num : Nat),
      runLoop g (mkNodeMap g.nodes) runId graphId (fuel + 1) (some node1)
          inp1 out1 num s =
        (.error "UNIQUE constraint failed: Runs.id",
          ⟨s.steps, s.waits ++ [4000, 9000, 16000]⟩)) := by
  refine ⟨?_, ?_, fun fuel node1 inp1 out1 num =>
    runLoop_blocked g (mkNodeMap g.nodes) runId graphId fuel node1 inp1 out1
      num s hblocked⟩
  · unfold runExit
    rw [if_pos rfl]
    simp [insertStep, hblocked]
  · unfold runExit
    rw [if_pos rfl]

/-- C10 witness: the amended theorem applied at the cap with the concrete
one-row store of the cycle run. -/
theorem cap_exit_behavior_witness :
    ((⟨[⟨"rc", "gc", "A", "null", "null", "B", "0", 1⟩], []⟩ : RState)).steps.any
      (fun row => row.id == "rc") = true ∧
    (runExit demoCycle "rc" "gc" (some cycA) () () MAX_NODE_EXECUTIONS
        ⟨[⟨"rc", "gc", "A", "null", "null", "B", "0", 1⟩], []⟩ =
      (.error "UNIQUE constraint failed: Runs.id",
        ⟨[⟨"rc", "gc", "A", "null", "null", "B", "0", 1⟩], []⟩) ∧
    runExit demoCycle "rc" "gc" none () () MAX_NODE_EXECUTIONS
        ⟨[⟨"rc", "gc", "A", "null", "null", "B", "0", 1⟩], []⟩ =
      (.error missingNodeMsg,
        ⟨[⟨"rc", "gc", "A", "null", "null", "B", "0", 1⟩], []⟩) ∧
    (∀ (fuel : Nat) (node1 : GraphNode Unit) (inp1 out1 : Unit) (num : Nat),
      runLoop demoCycle (mkNodeMap demoCycle.nodes) "rc" "gc" (fuel + 1)
          (some node1) inp1 out1 num
          ⟨[⟨"rc", "gc", "A", "null", "null", "B", "0", 1⟩], []⟩ =
        (.error "UNIQUE constraint failed: Runs.id",
          ⟨[⟨"rc", "gc", "A", "null", "null", "B", "0", 1⟩],
            [4000, 9000, 16000]⟩))) := by
  exact ⟨rfl, cap_exit_behavior demoCycle "rc" "gc" cycA () ()
    ⟨[⟨"rc", "gc", "A", "null", "null", "B", "0", 1⟩], []⟩ rfl⟩

/-! ## C9: `structuredClone` isolation -/

theorem readV_zero (h : JHeap) (v : JVal) : readV h 0 v = .broken := rfl

theorem readV_prim (h : JHeap) (fuel : Nat) (s : String) :
    readV h (fuel + 1) (.prim s) = .prim s := rfl

theorem readV_ref (h : JHeap) (fuel : Nat) (a : Nat) :
    readV h (fuel + 1) (.ref a) =
      match h[a]? with
      | none => .broken
      | some ob => .obj (ob.map (fun kv => (kv.1, readV h fuel kv.2))) := rfl

theorem cloneV_zero (h : JHeap) (v : JVal) (out : JHeap) :
    cloneV h 0 v out = none := rfl

theorem cloneV_prim (h : JHeap) (fuel : Nat) (s : String) (out : JHeap) :
    cloneV h (fuel + 1) (.prim s) out = some (.prim s, out) := rfl

theorem cloneV_ref (h : JHeap) (fuel : Nat) (a : Nat) (out : JHeap) :
    cloneV h (fuel + 1) (.ref a) out =
      match h[a]? with
      | none => none
      | some ob =>
        match cloneFields (cloneV h fuel) ob out with
        | none => none
        | some (flds, out') => some (.ref out'.length, out' ++ [flds]) := rfl

theorem cloneFields_extends (c : JVal → JHeap → Option (JVal × JHeap))
    (hc : ∀ v out r, c v out = some r → ∃ t, r.2 = out ++ t) :
    ∀ (o : JObj) (out : JHeap) (r : JObj × JHeap),
      cloneFields c o out = some r → ∃ t, r.2 = out ++ t := by
  intro o
  induction o with
  | nil =>
    intro out r hcl
    simp only [cloneFields] at hcl
    cases hcl
    exact ⟨[], by simp⟩
  | cons kv rest ih =>
    intro out r hcl
    simp only [cloneFields] at hcl
    split at hcl
    · cases hcl
    · rename_i v' out' h1
      split at hcl
      · cases hcl
      · rename_i rest' out'' h2
        cases hcl
        obtain ⟨t1, ht1⟩ := hc kv.2 out _ h1
        obtain ⟨t2, ht2⟩ := ih out' _ h2
        refine ⟨t1 ++ t2, ?_⟩
        show out'' = out ++ (t1 ++ t2)
        have ht1' : out' = out ++ t1 := ht1
        have ht2' : out'' = out' ++ t2 := ht2
        rw [ht2', ht1', List.append_assoc]

theorem cloneV_extends (h : JHeap) :
    ∀ (fuel : Nat) (v : JVal) (out : JHeap) (r : JVal × JHeap),
      cloneV h fuel v out = some r → ∃ t, r.2 = out ++ t := by
  intro fuel
  induction fuel with
  | zero =>
    intro v out r hcl
    rw [cloneV_zero] at hcl
    cases hcl
  | succ fuel ih =>
    intro v out r hcl
    cases v with
    | prim s =>
      rw [cloneV_prim] at hcl
      cases hcl
      exact ⟨[], by simp⟩
    | ref a =>
      rw [cloneV_ref] at hcl
      split at hcl
      · cases hcl
      · rename_i ob hga
        split at hcl
        · cases hcl
        · rename_i flds out' hcf
          cases hcl
          obtain ⟨t, ht⟩ :=
            cloneFields_extends (cloneV h fuel) (fun v o r hr => ih v o r hr) ob out _ hcf
          refine ⟨t ++ [flds], ?_⟩
          show out' ++ [flds] = out ++ (t ++ [flds])
          have ht' : out' = out ++ t := ht
          rw [ht', List.append_assoc]

theorem segAtLeast_concat (n : Nat) (H : JHeap) (ob : JObj)
    (hseg : segAtLeast n H) (hob : objAtLeast n ob) :
    segAtLeast n (H ++ [ob]) := by
  intro i ob' hni hget
  by_cases hi : i < H.length
  · rw [List.getElem?_append_left hi] at hget
    exact hseg i ob' hni hget
  · rw [List.getElem?_append_right (by omega)] at hget
    rcases hdelta : i - H.length with _ | d <;> rw [hdelta] at hget
    · simp only [List.getElem?_cons_zero, Option.some.injEq] at hget
      cases hget
      exact hob
    · simp at hget

theorem cloneFields_fresh (n : Nat) (c : JVal → JHeap → Option (JVal × JHeap))
    (hc : ∀ v out r, n ≤ out.length → segAtLeast n out → c v out = some r →
      valAtLeast n r.1 ∧ n ≤ r.2.length ∧ segAtLeast n r.2) :
    ∀ (o : JObj) (out : JHeap) (r : JObj × JHeap), n ≤ out.length →
      segAtLeast n out → cloneFields c o out = some r →
      objAtLeast n r.1 ∧ n ≤ r.2.length ∧ segAtLeast n r.2 := by
  intro o
  induction o with
  | nil =>
    intro out r hlen hseg hcl
    simp only [cloneFields] at hcl
    cases hcl
    exact ⟨fun kv hkv => absurd hkv (List.not_mem_nil _), hlen, hseg⟩
  | cons kv rest ih =>
    intro out r hlen hseg hcl
    simp only [cloneFields] at hcl
    split at hcl
    · cases hcl
    · rename_i v' out' h1
      split at hcl
      · cases hcl
      · rename_i rest' out'' h2
        cases hcl
        obtain ⟨hv', hlen', hseg'⟩ := hc kv.2 out _ hlen hseg h1
        obtain ⟨hrest', hlen'', hseg''⟩ := ih out' _ hlen' hseg' h2
        refine ⟨?_, hlen'', hseg''⟩
        intro kv' hkv'
        rcases List.mem_cons.mp hkv' with rfl | hkv'
        · exact hv'
        · exact hrest' kv' hkv'

theorem cloneV_fresh (h : JHeap) (n : Nat) :
    ∀ (fuel : Nat) (v : JVal) (out : JHeap) (r : JVal × JHeap), n ≤ out.length →
      segAtLeast n out → cloneV h fuel v out = some r →
      valAtLeast n r.1 ∧ n ≤ r.2.length ∧ segAtLeast n r.2 := by
  intro fuel
  induction fuel with
  | zero =>
    intro v out r hlen hseg hcl
    rw [cloneV_zero] at hcl
    cases hcl
  | succ fuel ih =>
    intro v out r hlen hseg hcl
    cases v with
    | prim s =>
      rw [cloneV_prim] at hcl
      cases hcl
      exact ⟨trivial, hlen, hseg⟩
    | ref a =>
      rw [cloneV_ref] at hcl
      split at hcl
      · cases hcl
      · rename_i ob hga
        split at hcl
        · cases hcl
        · rename_i flds out' hcf
          cases hcl
          obtain ⟨hflds, hlen', hseg'⟩ :=
            cloneFields_fresh n (cloneV h fuel) (fun v o r => ih v o r) ob out _
              hlen hseg hcf
          refine ⟨?_, ?_, segAtLeast_concat n out' flds hseg' hflds⟩
          · exact hlen'
          · have hl : n ≤ out'.length := hlen'
            simp only [List.length_append, List.length_singleton]
            omega

theorem readV_set_low (n : Nat) (H : JHeap) (a : Nat) (o : JObj)
    (ha : a < n) (hseg : segAtLeast n H) :
    ∀ (fuel : Nat) (v : JVal), valAtLeast n v →
      readV (H.set a o) fuel v = readV H fuel v := by
  intro fuel
  induction fuel with
  | zero => intro v hv; rfl
  | succ fuel ih =>
    intro v hv
    cases v with
    | prim s => rfl
    | ref b =>
      have hb : n ≤ b := hv
      rw [readV_ref, readV_ref, List.getElem?_set_ne (by omega : a ≠ b)]
      rcases hgb : H[b]? with _ | ob
      · rfl
      · refine congrArg JTree.obj (List.map_congr_left ?_)
        intro kv hkv
        have hkv2 := hseg b ob hb hgb kv hkv
        rw [ih kv.2 hkv2]

theorem cloneFields_reads (h : JHeap) (fuel : Nat)
    (hc : ∀ (v : JVal) (out : JHeap) (r : JVal × JHeap),
      cloneV h fuel v out = some r →
      (∃ t, r.2 = out ++ t) ∧
      ∀ H, (∃ t, H = r.2 ++ t) → readV H fuel r.1 = readV h fuel v) :
    ∀ (o : JObj) (out : JHeap) (r : JObj × JHeap),
      cloneFields (cloneV h fuel) o out = some r →
      (∃ t, r.2 = out ++ t) ∧
      ∀ H, (∃ t, H = r.2 ++ t) →
        r.1.map (fun kv => (kv.1, readV H fuel kv.2)) =
          o.map (fun kv => (kv.1, readV h fuel kv.2)) := by
  intro o
  induction o with
  | nil =>
    intro out r hcl
    simp only [cloneFields] at hcl
    cases hcl
    exact ⟨⟨[], by simp⟩, fun H _ => rfl⟩
  | cons kv rest ih =>
    intro out r hcl
    simp only [cloneFields] at hcl
    split at hcl
    · cases hcl
    · rename_i v' out' h1
      split at hcl
      · cases hcl
      · rename_i rest' out'' h2
        cases hcl
        obtain ⟨⟨t1, ht1⟩, hread1⟩ := hc kv.2 out _ h1
        obtain ⟨⟨t2, ht2⟩, hread2⟩ := ih out' _ h2
        have ht1' : out' = out ++ t1 := ht1
        have ht2' : out'' = out' ++ t2 := ht2
        refine ⟨⟨t1 ++ t2, ?_⟩, ?_⟩
        · show out'' = out ++ (t1 ++ t2)
          rw [ht2', ht1', List.append_assoc]
        · intro H hH
          obtain ⟨t, hHt⟩ := hH
          have hHt' : H = out'' ++ t := hHt
          simp only [List.map_cons]
          have hh1 : readV H fuel v' = readV h fuel kv.2 := by
            refine hread1 H ⟨t2 ++ t, ?_⟩
            show H = out' ++ (t2 ++ t)
            rw [hHt', ht2', List.append_assoc]
          have hh2 : rest'.map (fun kv => (kv.1, readV H fuel kv.2)) =
              rest.map (fun kv => (kv.1, readV h fuel kv.2)) :=
            hread2 H ⟨t, hHt'⟩
          rw [hh1, hh2]

theorem cloneV_reads (h : JHeap) :
    ∀ (fuel : Nat) (v : JVal) (out : JHeap) (r : JVal × JHeap),
      cloneV h fuel v out = some r →
      (∃ t, r.2 = out ++ t) ∧
      ∀ H, (∃ t, H = r.2 ++ t) → readV H fuel r.1 = readV h fuel v := by
  intro fuel
  induction fuel with
  | zero =>
    intro v out r hcl
    rw [cloneV_zero] at hcl
    cases hcl
  | succ fuel ih =>
    intro v out r hcl
    cases v with
    | prim s =>
      rw [cloneV_prim] at hcl
      cases hcl
      exact ⟨⟨[], by simp⟩, fun H _ => rfl⟩
    | ref a =>
      rw [cloneV_ref] at hcl
      split at hcl
      · cases hcl
      · rename_i ob hga
        split at hcl
        · cases hcl
        · rename_i flds out' hcf
          cases hcl
          obtain ⟨⟨t0, ht0⟩, hreads⟩ :=
            cloneFields_reads h fuel (fun v o r => ih v o r) ob out _ hcf
          have ht0' : out' = out ++ t0 := ht0
          refine ⟨⟨t0 ++ [flds], ?_⟩, ?_⟩
          · show out' ++ [flds] = out ++ (t0 ++ [flds])
            rw [ht0', List.append_assoc]
          · intro H hH
            obtain ⟨t, hHt⟩ := hH
            have hHt' : H = out' ++ ([flds] ++ t) := by
              rw [show H = (out' ++ [flds]) ++ t from hHt, List.append_assoc]
            have hget : H[out'.length]? = some flds := by
              rw [hHt', List.getElem?_append_right (le_refl _)]
              simp
            rw [readV_ref, readV_ref, hga, hget]
            exact congrArg JTree.obj (hreads H ⟨[flds] ++ t, hHt'⟩)

/-- C9: the value produced by `structuredClone` at a loop boundary
(core.ts:107) reads to the same deep value as the cloned output, and its
deep value is unaffected by any later in-place mutation of an object that
existed before the clone: the previous node's output and the next node's
input share no mutable state. -/
theorem structuredClone_no_shared_state (h : JHeap) (fuel : Nat) (v v' : JVal)
    (h' : JHeap) (hc : cloneV h fuel v h = some (v', h'))
    (a : Nat) (ha : a < h.length) (o : JObj) (rfuel : Nat) :
    readV (h'.set a o) rfuel v' = readV h' rfuel v' ∧
    readV h' fuel v' = readV h fuel v := by
  have hseg0 : segAtLeast h.length h := by
    intro i ob hni hget
    rw [List.getElem?_eq_none (by omega)] at hget
    cases hget
  have hfresh := cloneV_fresh h h.length fuel v h (v', h') (le_refl _) hseg0 hc
  constructor
  · exact readV_set_low h.length h' a o ha hfresh.2.2 rfuel v' hfresh.1
  · exact (cloneV_reads h fuel v h (v', h') hc).2 h' ⟨[], by simp⟩

/-- C9 witness: cloning the reference to object 1 of the concrete two-object
heap allocates fresh copies at addresses 2 and 3; mutating the original
object 0 afterwards does not change the deep value read through the clone,
which still equals the original deep value. -/
theorem structuredClone_no_shared_state_witness :
    cloneV demoHeap 3 (.ref 1) demoHeap =
      some (.ref 3, demoHeap ++ [[("x", JVal.prim "1")], [("y", JVal.ref 2)]]) ∧
    (0 : Nat) < demoHeap.length ∧
    readV ((demoHeap ++ [[("x", JVal.prim "1")], [("y", JVal.ref 2)]]).set 0
        [("x", JVal.prim "HACK")]) 5 (.ref 3) =
      readV (demoHeap ++ [[("x", JVal.prim "1")], [("y", JVal.ref 2)]]) 5 (.ref 3) ∧
    readV (demoHeap ++ [[("x", JVal.prim "1")], [("y", JVal.ref 2)]]) 3 (.ref 3) =
      readV demoHeap 3 (.ref 1) := by
  have hc : cloneV demoHeap 3 (.ref 1) demoHeap =
      some (.ref 3, demoHeap ++ [[("x", JVal.prim "1")], [("y", JVal.ref 2)]]) := by rfl
  have hmain := structuredClone_no_shared_state demoHeap 3 (.ref 1) (.ref 3)
    (demoHeap ++ [[("x", JVal.prim "1")], [("y", JVal.ref 2)]]) hc 0 (by decide)
    [("x", JVal.prim "HACK")] 5
  exact ⟨hc, by decide, hmain.1, hmain.2⟩
